import Mathlib

/-!
Shallow embedding of the memory balloon controller of `student_machine`
(`src/student_machine/balloon.py`), together with theorems settling the
specification claims about it.

Modelling conventions:

* Machine integers of the source are modelled as `Int` (Python integers are
  unbounded, so no wrap-around is needed).  Python's floor division `//` is
  `Int.fdiv`; Python's `int(...)` applied to a float product truncates toward
  zero and is `Int.tdiv` of the exact product.
* The source compares the float `free_ratio = available_mb / total_mb` against
  the float thresholds `0.30`/`0.50`.  This is idealised as exact rational
  arithmetic (`Rat.divInt`, `mkRat 3 10`, `mkRat 1 2`); the idealisation agrees
  with IEEE double semantics for every memory size below astronomic magnitudes
  (the rational ratio and the float thresholds can only disagree within
  `~1e-17` of the boundary, unreachable with denominators below `~1e16`).
* Effects are passed explicitly: the telemetry file content, the result of the
  balloon query, and the success of each issued QMP command are inputs; the
  list of issued protocol commands is an output.
-/

namespace StudentMachine

/-! ### QMP protocol client (`QMPClient`, balloon.py lines 12-152)

A QMP response is modelled by the only observations the client makes of it:
whether the parsed JSON object has a `return` key, whether it has an `error`
key, and the value of `response["return"].get("actual")` when `return` is
present (`none` both when the key is missing and when looking it up fails,
which the source converts to `None` via its `except` handler). -/

structure QMPMsg where
  hasReturn : Bool := false
  hasError : Bool := false
  actual : Option Int := none
deriving DecidableEq

/-- One `sock.recv(4096)` result: either a chunk of data (abstracted by a
`Nat` identifier) or the empty chunk `b""` signalling that the peer closed. -/
inductive Chunk where
  | data (d : Nat)
  | close
deriving DecidableEq

/-- Loop body of `QMPClient._recv` (balloon.py lines 54-70): accumulate chunks,
after each chunk try to parse the accumulated data as one JSON document
(`parse` abstracts `json.loads`; `none` models `json.JSONDecodeError`).
On the empty chunk the loop breaks and the function returns `{}` (the empty
object, modelled by the default `QMPMsg`).  A blocking `recv` with no further
traffic raises (timeout), modelled as `Except.error ()`. -/
def recvGo (parse : List Nat → Option QMPMsg) : List Nat → List Chunk → Except Unit QMPMsg
  | _, [] => Except.error ()
  | _, Chunk.close :: _ => Except.ok {}
  | acc, Chunk.data d :: rest =>
    match parse (acc ++ [d]) with
    | some m => Except.ok m
    | none => recvGo parse (acc ++ [d]) rest

/-- `QMPClient._recv` (balloon.py lines 54-70). -/
def qmp_recv (parse : List Nat → Option QMPMsg) (chunks : List Chunk) : Except Unit QMPMsg :=
  recvGo parse [] chunks

/-- `QMPClient.connect` (balloon.py lines 19-36).  `open_ok` models whether
creating and connecting the unix socket succeeded; `greeting` and `response`
are the chunk streams feeding the two `_recv` calls; `send_ok` models whether
`sendall` of the `qmp_capabilities` command succeeded.  Every exception is
caught by the source's `except` handler and turned into `False`. -/
def connect (parse : List Nat → Option QMPMsg) (open_ok : Bool) (greeting : List Chunk)
    (send_ok : Bool) (response : List Chunk) : Bool :=
  if open_ok = false then false
  else
    match qmp_recv parse greeting with
    | Except.error _ => false
    | Except.ok _ =>
      if send_ok = false then false
      else
        match qmp_recv parse response with
        | Except.error _ => false
        | Except.ok r => r.hasReturn

/-- `QMPClient.query_balloon` (balloon.py lines 72-81): returns
`response["return"].get("actual")` when the response has a `return` key,
`None` otherwise; every exception is caught and turned into `None`. -/
def query_balloon (parse : List Nat → Option QMPMsg) (send_ok : Bool)
    (chunks : List Chunk) : Option Int :=
  if send_ok = false then none
  else
    match qmp_recv parse chunks with
    | Except.error _ => none
    | Except.ok m => if m.hasReturn then m.actual else none

/-- `QMPClient.set_balloon` (balloon.py lines 83-94): success iff the response
has a `return` key; every exception is caught and turned into `False`. -/
def set_balloon (parse : List Nat → Option QMPMsg) (send_ok : Bool)
    (chunks : List Chunk) : Bool :=
  if send_ok = false then false
  else
    match qmp_recv parse chunks with
    | Except.error _ => false
    | Except.ok m => m.hasReturn

/-! ### Telemetry reader -/

/-- The fields of the guest telemetry JSON record that `adjust_memory` reads.
Missing fields are `none`; the source reads them with `dict.get(key, 0)`. -/
structure VMStatus where
  seq_id : Option Int := none
  total_mb : Option Int := none
  available_mb : Option Int := none
deriving DecidableEq

/-- `MemoryBalloonController.get_vm_memory_status` (balloon.py lines 240-249).
`exists_` models `self.status_file.exists()`, `read_ok` whether `read_text()`
succeeded, `parse` abstracts `json.loads` with its failure as `none`.  The
surrounding `try/except` turns every failure into `None`. -/
def get_vm_memory_status (exists_ : Bool) (read_ok : Bool) (content : String)
    (parse : String → Option VMStatus) : Option VMStatus :=
  if exists_ = false then none
  else if read_ok = false then none
  else parse content

/-! ### Controller state (`MemoryBalloonController.__init__`, balloon.py lines 209-238) -/

structure ControllerState where
  min_memory_mb : Int := 1024
  max_memory_mb : Int := 8192
  low_memory_threshold : ℚ := mkRat 3 10
  high_memory_threshold : ℚ := mkRat 1 2
  adjustment_step_mb : Int := 256
  last_processed_seq_id : Int := 0
  initial_balloon_mb : Option Int := none
  hotplug_slot_counter : Int := 0
  total_hotplugged_mb : Int := 0
  max_slots : Int := 16
deriving DecidableEq

/-- A fresh controller as built by `__init__` with explicit memory bounds and
all other arguments left at their defaults. -/
def initialState (min_mb max_mb : Int) : ControllerState :=
  { min_memory_mb := min_mb, max_memory_mb := max_mb }

/-- A protocol command issued by the controller during one `adjust_memory`
call.  The two-message hotplug exchange (`object-add` + `device_add`) is one
`hotplug` command here, carrying the DIMM size in MB and the numeric part of
the slot id `f"slot{n}"`. -/
inductive Command where
  | queryBalloon
  | setBalloon (size_bytes : Int)
  | hotplug (size_mb : Int) (slot_id : Int)
deriving DecidableEq

structure AdjustOutcome where
  state : ControllerState
  ret : Bool
  cmds : List Command
deriving DecidableEq

/-- Rounding up to the nearest 1024 MB:
`((desired_increase + 1023) // 1024) * 1024` (balloon.py line 329). -/
def round_up_1024 (d : Int) : Int :=
  (Int.fdiv (d + 1023) 1024) * 1024

/-- Low-memory branch of `adjust_memory` (balloon.py lines 313-353), entered
after the sequence id has been marked processed.  `s` is the state at that
point, `floor_mb = self._initial_balloon_mb`, `total_mb` the guest total, and
`hotplug_ok` whether `self.qmp.hotplug_memory(...)` returns `True`.  On
failure the optimistically incremented slot counter is reverted, so the state
is `s` again. -/
def lowBranch (s : ControllerState) (floor_mb total_mb : Int) (hotplug_ok : Bool) :
    AdjustOutcome :=
  let ceiling_mb := s.max_memory_mb
  let total_possible_mb := floor_mb + s.total_hotplugged_mb
  if ceiling_mb ≤ total_possible_mb then ⟨s, true, [Command.queryBalloon]⟩
  else if s.max_slots ≤ s.hotplug_slot_counter then ⟨s, true, [Command.queryBalloon]⟩
  else
    let desired_increase := round_up_1024 (max (Int.tdiv total_mb 2) s.adjustment_step_mb)
    let max_increase := ceiling_mb - total_possible_mb
    let actual_increase := min desired_increase max_increase
    if actual_increase < 256 then ⟨s, true, [Command.queryBalloon]⟩
    else
      let slot := s.hotplug_slot_counter + 1
      if hotplug_ok then
        ⟨{ s with hotplug_slot_counter := slot,
                  total_hotplugged_mb := s.total_hotplugged_mb + actual_increase },
          true, [Command.queryBalloon, Command.hotplug actual_increase slot]⟩
      else
        ⟨s, false, [Command.queryBalloon, Command.hotplug actual_increase slot]⟩

/-- High-memory branch of `adjust_memory` (balloon.py lines 357-378), entered
after the sequence id has been marked processed.  `current_mb` is the queried
balloon size in MB; `set_ok` is the result of `self.qmp.set_balloon(...)`.
When `new_size_mb` is not below `current_mb` the source falls through to the
final `return True` without issuing a command. -/
def highBranch (s : ControllerState) (floor_mb current_mb : Int) (set_ok : Bool) :
    AdjustOutcome :=
  if current_mb ≤ floor_mb then ⟨s, true, [Command.queryBalloon]⟩
  else
    let desired_decrease := max (Int.tdiv (3 * current_mb) 10) s.adjustment_step_mb
    let new_size_mb := max (current_mb - desired_decrease) floor_mb
    if new_size_mb < current_mb then
      ⟨s, set_ok, [Command.queryBalloon, Command.setBalloon (new_size_mb * (1024 * 1024))]⟩
    else ⟨s, true, [Command.queryBalloon]⟩

/-- `MemoryBalloonController.adjust_memory` (balloon.py lines 264-382).

Inputs: `vm_status` is the value of `self.get_vm_memory_status()` (`none`
also covers a falsy empty record), `query_result` the value of
`self.qmp.query_balloon()`, and `hotplug_ok`/`set_ok` the environment's answer
to a hotplug or balloon-set command, should one be issued.  The outcome holds
the new controller state, the boolean return value, and the list of protocol
commands issued (the read-only `query-balloon` included).

Faithful points to note: `desired_increase` uses `int(total_mb * 0.50)` which
truncates before the 1024-rounding, modelled by `Int.tdiv total_mb 2`;
`desired_decrease` uses `int(current_mb * 0.30)`, modelled by
`Int.tdiv (3 * current_mb) 10`; the floor is captured from the first
successful query (line 296) and the sequence id is marked processed at line
303, both before any branch runs. -/
def adjust_memory (s : ControllerState) (vm_status : Option VMStatus)
    (query_result : Option Int) (hotplug_ok set_ok : Bool) : AdjustOutcome :=
  match vm_status with
  | none => ⟨s, false, []⟩
  | some v =>
    let seq_id := v.seq_id.getD 0
    if seq_id = s.last_processed_seq_id then ⟨s, true, []⟩
    else
      let total_mb := v.total_mb.getD 0
      let available_mb := v.available_mb.getD 0
      if total_mb = 0 then ⟨s, false, []⟩
      else
        match query_result with
        | none => ⟨s, false, [Command.queryBalloon]⟩
        | some current_balloon =>
          let current_mb := Int.fdiv current_balloon (1024 * 1024)
          let s1 := if s.initial_balloon_mb = none
                    then { s with initial_balloon_mb := some current_mb } else s
          let s2 := { s1 with last_processed_seq_id := seq_id }
          let floor_mb := s2.initial_balloon_mb.getD current_mb
          let free_ratio : ℚ := Rat.divInt available_mb total_mb
          if free_ratio < s2.low_memory_threshold then
            lowBranch s2 floor_mb total_mb hotplug_ok
          else if s2.high_memory_threshold < free_ratio then
            highBranch s2 floor_mb current_mb set_ok
          else ⟨s2, true, [Command.queryBalloon]⟩

/-! ### Closed-loop system for the reachable-state invariant

The controller composed with an idealised hypervisor: the balloon query, when
it succeeds, reports the hypervisor's current balloon size; a successful
balloon-set makes that size the target value; a successful hotplug adds the
DIMM size to it (hot-added memory becomes part of the guest's memory). -/

structure SysState where
  ctrl : ControllerState
  balloon_bytes : Int
deriving DecidableEq

/-- Environment inputs for one `adjust_memory` call: the telemetry record (if
any), whether the balloon query succeeds, and whether a hotplug or balloon-set
command, should one be issued, succeeds. -/
structure EnvInput where
  vm_status : Option VMStatus
  query_ok : Bool
  hotplug_ok : Bool
  set_ok : Bool
deriving DecidableEq

/-- Effect of one issued command on the hypervisor's balloon size. -/
def applyCommand (hotplug_ok set_ok : Bool) (b : Int) : Command → Int
  | Command.queryBalloon => b
  | Command.setBalloon v => if set_ok then v else b
  | Command.hotplug m _ => if hotplug_ok then b + m * (1024 * 1024) else b

/-- One poll cycle of the closed loop: run `adjust_memory` against the current
balloon size, then apply the issued commands to the hypervisor. -/
def sysStep (σ : SysState) (e : EnvInput) : SysState :=
  let out := adjust_memory σ.ctrl e.vm_status
    (if e.query_ok then some σ.balloon_bytes else none) e.hotplug_ok e.set_ok
  ⟨out.state, out.cmds.foldl (applyCommand e.hotplug_ok e.set_ok) σ.balloon_bytes⟩

def sysRun (σ : SysState) : List EnvInput → SysState
  | [] => σ
  | e :: es => sysRun (sysStep σ e) es

/-- A freshly connected controller next to a hypervisor whose balloon
currently reports `b0` bytes. -/
def initSys (min_mb max_mb b0 : Int) : SysState :=
  ⟨initialState min_mb max_mb, b0⟩

/-- Balloon size in MB as the controller computes it: `bytes // (1024*1024)`. -/
def mbOf (b : Int) : Int := Int.fdiv b (1024 * 1024)

/-- The capacity bookkeeping invariant claimed by the specification, as an
executable check: once the floor has been captured,
`floor_mb ≤ current_balloon_mb ≤ floor_mb + total_hotplugged_mb ≤ ceiling_mb`,
and at all times `hotplug_slot_count ≤ max_slots`. -/
def sysInvOK (σ : SysState) : Bool :=
  decide (σ.ctrl.hotplug_slot_counter ≤ σ.ctrl.max_slots) &&
  match σ.ctrl.initial_balloon_mb with
  | none => true
  | some f =>
    decide (f ≤ mbOf σ.balloon_bytes) &&
    decide (mbOf σ.balloon_bytes ≤ f + σ.ctrl.total_hotplugged_mb) &&
    decide (f + σ.ctrl.total_hotplugged_mb ≤ σ.ctrl.max_memory_mb)

/-- Executable check of the per-command claim: relative to the state `σ` a
command is issued from, every balloon-set targets at least the floor and every
hotplug keeps `floor_mb + total_hotplugged_mb ≤ ceiling_mb` even after its
size is added to the accounting.  The floor is read from the post-state of the
call (it may be captured during the very call that issues the command); the
hotplug accounting and the ceiling are those of `σ`. -/
def commandOK (σ : SysState) (out : AdjustOutcome) : Command → Bool
  | Command.queryBalloon => true
  | Command.setBalloon v =>
    match out.state.initial_balloon_mb with
    | none => false
    | some f => decide (f * (1024 * 1024) ≤ v)
  | Command.hotplug m _ =>
    match out.state.initial_balloon_mb with
    | none => false
    | some f => decide (f + σ.ctrl.total_hotplugged_mb + m ≤ σ.ctrl.max_memory_mb)

/-- All commands issued during one poll cycle from `σ` satisfy `commandOK`. -/
def stepCommandsOK (σ : SysState) (e : EnvInput) : Bool :=
  let out := adjust_memory σ.ctrl e.vm_status
    (if e.query_ok then some σ.balloon_bytes else none) e.hotplug_ok e.set_ok
  out.cmds.all (commandOK σ out)

/-- All commands issued along a whole trace satisfy `commandOK` at the state
they are issued from. -/
def traceCommandsOK (σ : SysState) : List EnvInput → Bool
  | [] => true
  | e :: es => stepCommandsOK σ e && traceCommandsOK (sysStep σ e) es

/-- Inductive strengthening of the claimed invariant, used to carry the
induction over traces: the configuration fields are those of a fresh
controller with ceiling `max_mb`; before the floor is captured nothing has
been hotplugged and the balloon still reports the initial `b0`; after capture
the claimed bound chain holds. -/
def StateAux (max_mb b0 : Int) (σ : SysState) : Prop :=
  Int.fdiv b0 (1024 * 1024) ≤ max_mb ∧
  σ.ctrl.max_memory_mb = max_mb ∧
  σ.ctrl.max_slots = 16 ∧
  σ.ctrl.hotplug_slot_counter ≤ 16 ∧
  (σ.ctrl.initial_balloon_mb = none →
    σ.ctrl.total_hotplugged_mb = 0 ∧ σ.ctrl.hotplug_slot_counter = 0 ∧
    σ.balloon_bytes = b0) ∧
  (∀ f, σ.ctrl.initial_balloon_mb = some f →
    f ≤ mbOf σ.balloon_bytes ∧ mbOf σ.balloon_bytes ≤ f + σ.ctrl.total_hotplugged_mb ∧
    f + σ.ctrl.total_hotplugged_mb ≤ max_mb)

/-! ### Spec-side formulas, for refinement comparison -/

/-- Modelled from the spec's words (claim C2) for refinement comparison: the
claimed hotplug size `min(ceil-to-1024(max(total_mb * 0.50, step_mb)),
ceiling_mb - (floor_mb + total_hotplugged_mb))` with the multiplication kept
exact (no integer truncation), over ℚ. -/
def claimC2HotplugSize (total_mb step_mb floor_mb hotplugged_mb ceiling_mb : ℚ) : ℚ :=
  min ((1024 : ℚ) * (⌈(max (total_mb * (1 / 2)) step_mb) / 1024⌉ : ℤ))
    (ceiling_mb - (floor_mb + hotplugged_mb))

/-- Modelled from the spec's words (claim C3) for refinement comparison: the
claimed new balloon size in bytes,
`max(current_mb - max(current_mb * 0.30, step_mb), floor_mb)` converted to
bytes, with the multiplication kept exact (no integer truncation), over ℚ. -/
def claimC3NewSizeBytes (current_mb floor_mb step_mb : ℚ) : ℚ :=
  (max (current_mb - max (current_mb * (3 / 10)) step_mb) floor_mb) * (1024 * 1024)

/-! ### Helper lemmas -/

lemma highBranch_state (s : ControllerState) (f c : Int) (k : Bool) :
    (highBranch s f c k).state = s := by
  simp only [highBranch]
  repeat' split
  all_goals rfl

lemma lowBranch_state_false (s : ControllerState) (f t : Int) :
    (lowBranch s f t false).state = s := by
  simp only [lowBranch]
  repeat' split
  all_goals first | rfl | simp_all

lemma adjust_memory_skip (s : ControllerState) (v : VMStatus) (q : Option Int)
    (hok sok : Bool) (h : v.seq_id.getD 0 = s.last_processed_seq_id) :
    adjust_memory s (some v) q hok sok = ⟨s, true, []⟩ := by
  simp [adjust_memory, h]

/-- Shape of the low branch outcome, for every input: either a guarded no-op,
or a hotplug attempt of some size `a` with `256 ≤ a`, fitting under the
ceiling, from a state with a free slot. -/
lemma lowBranch_spec (s : ControllerState) (f t : Int) (hok : Bool) :
    lowBranch s f t hok = ⟨s, true, [Command.queryBalloon]⟩ ∨
    ∃ a, 256 ≤ a ∧ f + s.total_hotplugged_mb + a ≤ s.max_memory_mb ∧
      s.hotplug_slot_counter < s.max_slots ∧
      ((hok = true ∧ lowBranch s f t hok =
          ⟨{ s with hotplug_slot_counter := s.hotplug_slot_counter + 1,
                    total_hotplugged_mb := s.total_hotplugged_mb + a },
            true, [Command.queryBalloon, Command.hotplug a (s.hotplug_slot_counter + 1)]⟩) ∨
       (hok = false ∧ lowBranch s f t hok =
          ⟨s, false, [Command.queryBalloon, Command.hotplug a (s.hotplug_slot_counter + 1)]⟩)) := by
  unfold lowBranch
  by_cases h1 : s.max_memory_mb ≤ f + s.total_hotplugged_mb
  · simp [h1]
  · simp only [h1, if_false]
    by_cases h2 : s.max_slots ≤ s.hotplug_slot_counter
    · simp [h2]
    · simp only [h2, if_false]
      set a := min (round_up_1024 (max (Int.tdiv t 2) s.adjustment_step_mb))
        (s.max_memory_mb - (f + s.total_hotplugged_mb)) with ha
      by_cases h3 : a < 256
      · simp [h3]
      · right
        refine ⟨a, by omega, by omega, by omega, ?_⟩
        cases hok
        · simp [h3]
        · simp [h3]

/-- Shape of the high branch outcome, for every input: either a no-op, or a
balloon-set to `ns * 2^20` with `f ≤ ns < c`. -/
lemma highBranch_spec (s : ControllerState) (f c : Int) (k : Bool) :
    highBranch s f c k = ⟨s, true, [Command.queryBalloon]⟩ ∨
    ∃ ns, f ≤ ns ∧ ns < c ∧ highBranch s f c k =
      ⟨s, k, [Command.queryBalloon, Command.setBalloon (ns * (1024 * 1024))]⟩ := by
  unfold highBranch
  by_cases h1 : c ≤ f
  · simp [h1]
  · simp only [h1, if_false]
    set ns := max (c - max (Int.tdiv (3 * c) 10) s.adjustment_step_mb) f with hns
    by_cases h2 : ns < c
    · right
      exact ⟨ns, by omega, h2, by simp [h2]⟩
    · simp [h2]

/-! ### Claim theorems -/

/-- Claim C4: the decision step is idempotent per telemetry snapshot.  A call
with a record whose `seq_id` (defaulting to 0 when absent) equals the last
processed id short-circuits: no protocol command at all is issued (not even
the balloon query), the return value is success, and the state is unchanged.
Dedup uses equality only, so any differing id — a strictly smaller one
included — is treated as new; for an actionable record (`total_mb > 0` and a
successful balloon query) the id is marked processed whatever the branch then
does, so a second call with the same record short-circuits even if the first
adjustment failed or was skipped. -/
theorem adjust_memory_idempotent_per_snapshot (s : ControllerState) (v : VMStatus)
    (q : Option Int) (hok sok : Bool) :
    (v.seq_id.getD 0 = s.last_processed_seq_id →
      adjust_memory s (some v) q hok sok = ⟨s, true, []⟩) ∧
    (v.seq_id.getD 0 ≠ s.last_processed_seq_id → 0 < v.total_mb.getD 0 →
      ∀ b, q = some b →
        (adjust_memory s (some v) q hok sok).state.last_processed_seq_id = v.seq_id.getD 0 ∧
        ∀ q' hok' sok',
          adjust_memory ((adjust_memory s (some v) q hok sok).state) (some v) q' hok' sok' =
            ⟨(adjust_memory s (some v) q hok sok).state, true, []⟩) := by
  constructor
  · intro h
    exact adjust_memory_skip s v q hok sok h
  · intro hseq htot b hb
    subst hb
    have htot' : v.total_mb.getD 0 ≠ 0 := by omega
    have hmark : (adjust_memory s (some v) (some b) hok sok).state.last_processed_seq_id =
        v.seq_id.getD 0 := by
      simp only [adjust_memory, hseq, if_false, htot', if_neg htot']
      set s1 := if s.initial_balloon_mb = none
        then { s with initial_balloon_mb := some (Int.fdiv b (1024 * 1024)) } else s with hs1
      split
      · rcases lowBranch_spec { s1 with last_processed_seq_id := v.seq_id.getD 0 }
          (Option.getD ({ s1 with last_processed_seq_id := v.seq_id.getD 0 }).initial_balloon_mb
            (Int.fdiv b (1024 * 1024))) (v.total_mb.getD 0) hok with h | ⟨a, _, _, _, h⟩
        · rw [h]
        · rcases h with ⟨_, h⟩ | ⟨_, h⟩ <;> rw [h]
      · split
        · rcases highBranch_spec { s1 with last_processed_seq_id := v.seq_id.getD 0 }
            (Option.getD ({ s1 with last_processed_seq_id := v.seq_id.getD 0 }).initial_balloon_mb
              (Int.fdiv b (1024 * 1024))) (Int.fdiv b (1024 * 1024)) sok with h | ⟨ns, _, _, h⟩
          · rw [h]
          · rw [h]
        · rfl
    refine ⟨hmark, ?_⟩
    intro q' hok' sok'
    exact adjust_memory_skip _ v q' hok' sok' hmark.symm

/-- Witness for C4 at a concrete input: last processed id 5, record id 3 (a
strictly smaller, hence "new" id); after the call the id is marked processed
and a repeat call short-circuits. -/
theorem adjust_memory_idempotent_per_snapshot_witness :
    (adjust_memory { initialState 1024 8192 with last_processed_seq_id := 5 }
        (some { seq_id := some 3, total_mb := some 4096, available_mb := some 2000 })
        (some (2048 * 1048576)) true true).state.last_processed_seq_id = 3 ∧
    adjust_memory
        ((adjust_memory { initialState 1024 8192 with last_processed_seq_id := 5 }
          (some { seq_id := some 3, total_mb := some 4096, available_mb := some 2000 })
          (some (2048 * 1048576)) true true).state)
        (some { seq_id := some 3, total_mb := some 4096, available_mb := some 2000 })
        none false false =
      ⟨(adjust_memory { initialState 1024 8192 with last_processed_seq_id := 5 }
          (some { seq_id := some 3, total_mb := some 4096, available_mb := some 2000 })
          (some (2048 * 1048576)) true true).state, true, []⟩ := by
  have h := (adjust_memory_idempotent_per_snapshot
      { initialState 1024 8192 with last_processed_seq_id := 5 }
      { seq_id := some 3, total_mb := some 4096, available_mb := some 2000 }
      (some (2048 * 1048576)) true true).2 (by decide) (by decide) (2048 * 1048576) rfl
  exact ⟨h.1, h.2 none false false⟩

/-- Claim C5: a failed hotplug command leaves the capacity state unchanged —
`total_hotplugged_mb` is not incremented and the optimistically reserved slot
counter is reverted, so both equal their pre-call values.  Stated for every
input with the hotplug command failing (`hotplug_ok = false`), which covers in
particular the path where a hotplug is actually issued and fails. -/
theorem failed_hotplug_leaves_capacity_state (s : ControllerState) (vm : Option VMStatus)
    (q : Option Int) (sok : Bool) :
    (adjust_memory s vm q false sok).state.total_hotplugged_mb = s.total_hotplugged_mb ∧
    (adjust_memory s vm q false sok).state.hotplug_slot_counter = s.hotplug_slot_counter := by
  cases vm with
  | none => exact ⟨rfl, rfl⟩
  | some v =>
    by_cases hseq : v.seq_id.getD 0 = s.last_processed_seq_id
    · rw [adjust_memory_skip s v q false sok hseq]
      exact ⟨rfl, rfl⟩
    · by_cases htot : v.total_mb.getD 0 = 0
      · simp [adjust_memory, hseq, htot]
      · cases q with
        | none => simp [adjust_memory, hseq, htot]
        | some b =>
          simp only [adjust_memory, hseq, if_false, htot, if_neg htot]
          set s1 := if s.initial_balloon_mb = none
            then { s with initial_balloon_mb := some (Int.fdiv b (1024 * 1024)) } else s with hs1
          have hs1hot : s1.total_hotplugged_mb = s.total_hotplugged_mb := by
            rw [hs1]; split <;> rfl
          have hs1cnt : s1.hotplug_slot_counter = s.hotplug_slot_counter := by
            rw [hs1]; split <;> rfl
          split
          · rw [lowBranch_state_false]
            simp [hs1hot, hs1cnt]
          · split
            · rw [highBranch_state]
              simp [hs1hot, hs1cnt]
            · simp [hs1hot, hs1cnt]

/-- Claim C9: a freshly constructed controller has `last_processed_seq_id = 0`,
so the first record whose `seq_id` is 0 — or which omits the field, since
`dict.get("seq_id", 0)` defaults to 0 — is treated as already processed:
`adjust_memory` returns success, issues no protocol command, and leaves the
state unchanged. -/
theorem fresh_controller_skips_seq_zero (min_mb max_mb : Int) (v : VMStatus)
    (q : Option Int) (hok sok : Bool) (h : v.seq_id = some 0 ∨ v.seq_id = none) :
    (initialState min_mb max_mb).last_processed_seq_id = 0 ∧
    adjust_memory (initialState min_mb max_mb) (some v) q hok sok =
      ⟨initialState min_mb max_mb, true, []⟩ := by
  refine ⟨rfl, adjust_memory_skip _ v q hok sok ?_⟩
  rcases h with h | h <;> simp [h, initialState]

/-- Witness for C9: a record that omits `seq_id` entirely is skipped by a
fresh controller. -/
theorem fresh_controller_skips_seq_zero_witness :
    ((some 0 : Option Int) = some 0 ∨ (some 0 : Option Int) = none) ∧
    ((initialState 1024 8192).last_processed_seq_id = 0 ∧
      adjust_memory (initialState 1024 8192)
        (some { seq_id := some 0, total_mb := some 4096, available_mb := some 10 })
        (some 0) true true = ⟨initialState 1024 8192, true, []⟩) :=
  ⟨Or.inl rfl,
    fresh_controller_skips_seq_zero 1024 8192
      { seq_id := some 0, total_mb := some 4096, available_mb := some 10 }
      (some 0) true true (Or.inl rfl)⟩

/-- Claim C6: the thresholds are strict inequalities on opposite sides, so the
neutral band is inclusive of both boundaries.  For every new actionable record
whose free ratio satisfies `low_threshold ≤ ratio ≤ high_threshold` (boundary
values included), the decision step issues no memory-adjustment command — the
only protocol exchange is the read-only balloon query that precedes the
decision — and returns success. -/
theorem neutral_band_no_action (s : ControllerState) (v : VMStatus) (b : Int)
    (hok sok : Bool)
    (hseq : v.seq_id.getD 0 ≠ s.last_processed_seq_id)
    (htot : 0 < v.total_mb.getD 0)
    (hlow : s.low_memory_threshold ≤ Rat.divInt (v.available_mb.getD 0) (v.total_mb.getD 0))
    (hhigh : Rat.divInt (v.available_mb.getD 0) (v.total_mb.getD 0) ≤ s.high_memory_threshold) :
    (adjust_memory s (some v) (some b) hok sok).ret = true ∧
    (adjust_memory s (some v) (some b) hok sok).cmds = [Command.queryBalloon] := by
  have htot' : v.total_mb.getD 0 ≠ 0 := by omega
  have h1 : ¬ (Rat.divInt (v.available_mb.getD 0) (v.total_mb.getD 0) < s.low_memory_threshold) :=
    not_lt.mpr hlow
  have h2 : ¬ (s.high_memory_threshold < Rat.divInt (v.available_mb.getD 0) (v.total_mb.getD 0)) :=
    not_lt.mpr hhigh
  simp only [adjust_memory, hseq, if_false, htot', if_neg htot']
  set s1 := if s.initial_balloon_mb = none
    then { s with initial_balloon_mb := some (Int.fdiv b (1024 * 1024)) } else s with hs1
  have hlo : ({ s1 with last_processed_seq_id := v.seq_id.getD 0 }).low_memory_threshold =
      s.low_memory_threshold := by rw [hs1]; split <;> rfl
  have hhi : ({ s1 with last_processed_seq_id := v.seq_id.getD 0 }).high_memory_threshold =
      s.high_memory_threshold := by rw [hs1]; split <;> rfl
  rw [hlo, hhi, if_neg h1, if_neg h2]
  exact ⟨rfl, rfl⟩

/-- Witness for C6 at a ratio exactly on the low boundary: 768/2560 = 0.30. -/
theorem neutral_band_no_action_witness :
    ((3 : Int) ≠ 0 ∧ (0 : Int) < 2560 ∧
      (mkRat 3 10 ≤ Rat.divInt 768 2560) ∧ (Rat.divInt 768 2560 ≤ mkRat 1 2)) ∧
    ((adjust_memory { initialState 1024 8192 with initial_balloon_mb := some 2048 }
        (some { seq_id := some 3, total_mb := some 2560, available_mb := some 768 })
        (some (3000 * 1048576)) true true).ret = true ∧
      (adjust_memory { initialState 1024 8192 with initial_balloon_mb := some 2048 }
        (some { seq_id := some 3, total_mb := some 2560, available_mb := some 768 })
        (some (3000 * 1048576)) true true).cmds = [Command.queryBalloon]) :=
  ⟨⟨by decide, by decide, by decide, by decide⟩,
    neutral_band_no_action { initialState 1024 8192 with initial_balloon_mb := some 2048 }
      { seq_id := some 3, total_mb := some 2560, available_mb := some 768 }
      (3000 * 1048576) true true (by decide) (by decide) (by decide) (by decide)⟩

/-- Claim C8: reading the telemetry status returns `None` whenever the status
file does not exist, cannot be read, or its contents fail to parse as JSON;
on a well-formed file it returns the parsed record.  The embedding is a total
function, reflecting that the source's `try/except` lets no exception
escape. -/
theorem get_vm_memory_status_never_raises (exists_ read_ok : Bool) (content : String)
    (parse : String → Option VMStatus) (v : VMStatus) :
    (exists_ = false → get_vm_memory_status exists_ read_ok content parse = none) ∧
    (read_ok = false → get_vm_memory_status exists_ read_ok content parse = none) ∧
    (parse content = none → get_vm_memory_status exists_ read_ok content parse = none) ∧
    (exists_ = true → read_ok = true → parse content = some v →
      get_vm_memory_status exists_ read_ok content parse = some v) := by
  refine ⟨?_, ?_, ?_, ?_⟩
  · intro h; simp [get_vm_memory_status, h]
  · intro h; cases exists_ <;> simp [get_vm_memory_status, h]
  · intro h; cases exists_ <;> cases read_ok <;> simp [get_vm_memory_status, h]
  · intro h1 h2 h3; simp [get_vm_memory_status, h1, h2, h3]

/-- Witness for C8: an absent file yields `none`; a present, well-formed file
yields the parsed record. -/
theorem get_vm_memory_status_never_raises_witness :
    (get_vm_memory_status false true "x" (fun _ => none) = none) ∧
    (get_vm_memory_status true true "r"
      (fun _ => some { seq_id := some 7 }) = some { seq_id := some 7 }) :=
  ⟨(get_vm_memory_status_never_raises false true "x" (fun _ => none) {}).1 rfl,
    (get_vm_memory_status_never_raises true true "r"
      (fun _ => some { seq_id := some 7 }) { seq_id := some 7 }).2.2.2 rfl rfl rfl⟩

/-- Counterexample to claim C2 as stated.  At `total_mb = 2049` (floor 2048
MB, no prior hotplug, ceiling 8192, free ratio 0 < 0.30) the claim's formula
`min(ceil-to-1024(max(total_mb * 0.50, step_mb)), headroom)` demands a hotplug
of 2048 MB (`ceil-to-1024(1024.5) = 2048`), but the source truncates
`int(total_mb * 0.50)` to 1024 *before* rounding up, so it hotplugs 1024 MB. -/
theorem low_memory_hotplug_counterexample :
    (adjust_memory { initialState 1024 8192 with initial_balloon_mb := some 2048 }
        (some { seq_id := some 1, total_mb := some 2049, available_mb := some 0 })
        (some (2048 * 1048576)) true true).cmds
      = [Command.queryBalloon, Command.hotplug 1024 1] ∧
    claimC2HotplugSize 2049 256 2048 0 8192 = 2048 ∧
    (1024 : ℚ) ≠ 2048 := by
  refine ⟨by decide, ?_, by norm_num⟩
  rw [claimC2HotplugSize]
  norm_num
  rw [show ⌈(2049 : ℚ) / 2048⌉ = 2 from by norm_num [Int.ceil_eq_iff]]
  norm_num

/-- Claim C2 (amended): for every new record with `total_mb > 0` and free
ratio strictly below the low threshold, when the floor is captured,
`floor_mb + total_hotplugged_mb < ceiling_mb` and a DIMM slot is free, the
decision step issues exactly one hotplug command (besides the read-only
balloon query) whose size is
`min(round-up-1024(max(⌊total_mb * 0.50⌋, step_mb)), ceiling_mb - (floor_mb +
total_hotplugged_mb))` — the truncation `⌊·⌋` applied before the rounding —
provided that clamped size is at least 256 MB, and on success the accounting
grows by that size and the slot count by one; if the clamped size is below
256 MB no adjustment command is issued and the call reports success. -/
theorem low_memory_hotplug_size (s : ControllerState) (v : VMStatus) (b f : Int)
    (hok sok : Bool)
    (hseq : v.seq_id.getD 0 ≠ s.last_processed_seq_id)
    (hfloor : s.initial_balloon_mb = some f)
    (htot : 0 < v.total_mb.getD 0)
    (hratio : Rat.divInt (v.available_mb.getD 0) (v.total_mb.getD 0) < s.low_memory_threshold)
    (hcap : f + s.total_hotplugged_mb < s.max_memory_mb)
    (hslots : s.hotplug_slot_counter < s.max_slots) :
    (256 ≤ min (round_up_1024 (max (Int.tdiv (v.total_mb.getD 0) 2) s.adjustment_step_mb))
        (s.max_memory_mb - (f + s.total_hotplugged_mb)) →
      (adjust_memory s (some v) (some b) hok sok).cmds =
        [Command.queryBalloon,
          Command.hotplug
            (min (round_up_1024 (max (Int.tdiv (v.total_mb.getD 0) 2) s.adjustment_step_mb))
              (s.max_memory_mb - (f + s.total_hotplugged_mb)))
            (s.hotplug_slot_counter + 1)] ∧
      (hok = true →
        (adjust_memory s (some v) (some b) hok sok).state.total_hotplugged_mb =
          s.total_hotplugged_mb +
            min (round_up_1024 (max (Int.tdiv (v.total_mb.getD 0) 2) s.adjustment_step_mb))
              (s.max_memory_mb - (f + s.total_hotplugged_mb)) ∧
        (adjust_memory s (some v) (some b) hok sok).state.hotplug_slot_counter =
          s.hotplug_slot_counter + 1)) ∧
    (min (round_up_1024 (max (Int.tdiv (v.total_mb.getD 0) 2) s.adjustment_step_mb))
        (s.max_memory_mb - (f + s.total_hotplugged_mb)) < 256 →
      (adjust_memory s (some v) (some b) hok sok).cmds = [Command.queryBalloon] ∧
      (adjust_memory s (some v) (some b) hok sok).ret = true) := by
  have htot' : v.total_mb.getD 0 ≠ 0 := by omega
  have hfl : ¬ (s.initial_balloon_mb = none) := by simp [hfloor]
  simp only [adjust_memory, if_neg hseq, if_neg htot', if_neg hfl]
  simp only [hfloor, Option.getD_some]
  rw [if_pos hratio]
  simp only [lowBranch]
  rw [if_neg (not_le.mpr hcap), if_neg (not_le.mpr hslots)]
  constructor
  · intro h256
    rw [if_neg (not_lt.mpr h256)]
    cases hok
    · simp
    · simp
  · intro h256
    rw [if_pos h256]
    exact ⟨rfl, rfl⟩

/-- Witness for the amended C2 at the spec's Scenario 1: `total_mb = 4096`,
`available_mb = 800`, floor 2048, ceiling 8192, no prior hotplug → hotplug of
2048 MB, slot count becomes 1. -/
theorem low_memory_hotplug_size_witness :
    (adjust_memory { initialState 1024 8192 with initial_balloon_mb := some 2048 }
        (some { seq_id := some 1, total_mb := some 4096, available_mb := some 800 })
        (some (2048 * 1048576)) true true).cmds
      = [Command.queryBalloon, Command.hotplug 2048 1] ∧
    (adjust_memory { initialState 1024 8192 with initial_balloon_mb := some 2048 }
        (some { seq_id := some 1, total_mb := some 4096, available_mb := some 800 })
        (some (2048 * 1048576)) true true).state.total_hotplugged_mb = 2048 ∧
    (adjust_memory { initialState 1024 8192 with initial_balloon_mb := some 2048 }
        (some { seq_id := some 1, total_mb := some 4096, available_mb := some 800 })
        (some (2048 * 1048576)) true true).state.hotplug_slot_counter = 1 := by
  have h := (low_memory_hotplug_size
      { initialState 1024 8192 with initial_balloon_mb := some 2048 }
      { seq_id := some 1, total_mb := some 4096, available_mb := some 800 }
      (2048 * 1048576) 2048 true true (by decide) rfl (by decide) (by decide) (by decide)
      (by decide)).1 (by decide)
  exact ⟨h.1.trans (by decide), (h.2 rfl).1.trans (by decide), (h.2 rfl).2.trans (by decide)⟩

/-- Counterexample to claim C3 as stated.  At a current balloon of 1001 MB
(floor 500 MB, free ratio 0.586 > 0.50) the claim's formula
`max(current_mb - max(current_mb * 0.30, step_mb), floor_mb)` in bytes gives
the non-integral `700.7 * 2^20 = 734737203.2`, but the source truncates
`int(current_mb * 0.30)` to 300 and sets the balloon to `701 * 2^20`. -/
theorem high_memory_balloon_counterexample :
    (adjust_memory { initialState 1024 8192 with initial_balloon_mb := some 500 }
        (some { seq_id := some 1, total_mb := some 4096, available_mb := some 2400 })
        (some (1001 * 1048576)) true true).cmds
      = [Command.queryBalloon, Command.setBalloon (701 * 1048576)] ∧
    claimC3NewSizeBytes 1001 500 256 = 7347372032 / 10 ∧
    ((701 * 1048576 : ℚ)) ≠ 7347372032 / 10 := by
  refine ⟨by decide, ?_, by norm_num⟩
  rw [claimC3NewSizeBytes]
  rw [show ((1001 : ℚ)) * (3 / 10) = 3003 / 10 by norm_num,
      max_eq_left (by norm_num : (256 : ℚ) ≤ 3003 / 10),
      show ((1001 : ℚ) - 3003 / 10) = 7007 / 10 by norm_num,
      max_eq_left (by norm_num : (500 : ℚ) ≤ 7007 / 10)]
  norm_num

/-- Claim C3 (amended): for every new record with `total_mb > 0` and free
ratio strictly above the high threshold (the thresholds being ordered
`low ≤ high` and the step positive), when the current balloon in MB is
strictly above the captured floor, the decision step issues exactly one
balloon-resize command (besides the read-only balloon query) targeting
`max(current_mb - max(⌊current_mb * 0.30⌋, step_mb), floor_mb)` megabytes
converted to bytes — the truncation `⌊·⌋` applied to the product — returns the
command's success value, and leaves the hotplug accounting unchanged. -/
theorem high_memory_balloon_target (s : ControllerState) (v : VMStatus) (b f : Int)
    (hok sok : Bool)
    (hseq : v.seq_id.getD 0 ≠ s.last_processed_seq_id)
    (hfloor : s.initial_balloon_mb = some f)
    (htot : 0 < v.total_mb.getD 0)
    (hthr : s.low_memory_threshold ≤ s.high_memory_threshold)
    (hratio : s.high_memory_threshold < Rat.divInt (v.available_mb.getD 0) (v.total_mb.getD 0))
    (hstep : 0 < s.adjustment_step_mb)
    (hcur : f < Int.fdiv b (1024 * 1024)) :
    (adjust_memory s (some v) (some b) hok sok).cmds =
      [Command.queryBalloon,
        Command.setBalloon
          ((max (Int.fdiv b (1024 * 1024) -
              max (Int.tdiv (3 * Int.fdiv b (1024 * 1024)) 10) s.adjustment_step_mb) f) *
            (1024 * 1024))] ∧
    (adjust_memory s (some v) (some b) hok sok).ret = sok ∧
    (adjust_memory s (some v) (some b) hok sok).state.total_hotplugged_mb =
      s.total_hotplugged_mb ∧
    (adjust_memory s (some v) (some b) hok sok).state.hotplug_slot_counter =
      s.hotplug_slot_counter := by
  have htot' : v.total_mb.getD 0 ≠ 0 := by omega
  have hfl : ¬ (s.initial_balloon_mb = none) := by simp [hfloor]
  have hnotlow : ¬ (Rat.divInt (v.available_mb.getD 0) (v.total_mb.getD 0) <
      s.low_memory_threshold) :=
    not_lt.mpr (le_of_lt (lt_of_le_of_lt hthr hratio))
  simp only [adjust_memory, if_neg hseq, if_neg htot', if_neg hfl]
  simp only [hfloor, Option.getD_some]
  rw [if_neg hnotlow, if_pos hratio]
  simp only [highBranch]
  rw [if_neg (not_le.mpr hcur)]
  have hns : max (Int.fdiv b (1024 * 1024) -
      max (Int.tdiv (3 * Int.fdiv b (1024 * 1024)) 10) s.adjustment_step_mb) f <
      Int.fdiv b (1024 * 1024) := by
    have h1 : 0 < max (Int.tdiv (3 * Int.fdiv b (1024 * 1024)) 10) s.adjustment_step_mb :=
      lt_of_lt_of_le hstep (le_max_right _ _)
    omega
  rw [if_pos hns]
  exact ⟨rfl, rfl, rfl, rfl⟩

/-- Witness for the amended C3 at the spec's Scenario 3: current balloon 3000
MB, floor 2048, `total_mb = 4096`, `available_mb = 2400` → balloon set to
2100 MB. -/
theorem high_memory_balloon_target_witness :
    (adjust_memory { initialState 1024 8192 with initial_balloon_mb := some 2048 }
        (some { seq_id := some 1, total_mb := some 4096, available_mb := some 2400 })
        (some (3000 * 1048576)) true true).cmds
      = [Command.queryBalloon, Command.setBalloon (2100 * 1048576)] ∧
    (adjust_memory { initialState 1024 8192 with initial_balloon_mb := some 2048 }
        (some { seq_id := some 1, total_mb := some 4096, available_mb := some 2400 })
        (some (3000 * 1048576)) true true).ret = true := by
  have h := high_memory_balloon_target
      { initialState 1024 8192 with initial_balloon_mb := some 2048 }
      { seq_id := some 1, total_mb := some 4096, available_mb := some 2400 }
      (3000 * 1048576) 2048 true true (by decide) rfl (by decide) (by decide) (by decide)
      (by decide) (by decide)
  exact ⟨h.1.trans (by decide), h.2.1⟩

/-- Counterexample to claim C7 as stated.  `connect()` never raises
`ConnectionError` (or anything else): its `except Exception` handler converts
every failure into the return value `False`.  Here the transport cannot be
opened, and here the peer closes during the handshake; both runs *return*
`false` — the embedding of `connect` is a total `Bool`-valued function, there
is no exception outcome. -/
theorem connect_failure_counterexample :
    connect (fun _ => none) false [] true [] = false ∧
    connect (fun _ => none) true [Chunk.close] true [Chunk.close] = false :=
  ⟨rfl, rfl⟩

/-- Claim C7 (amended): `connect()` returns `False` — catching the underlying
exception rather than letting a `ConnectionError` escape — when the transport
cannot be opened, when reading the greeting or the capability-negotiation
response fails or times out, or when sending fails; it returns `True` exactly
when every step succeeds and the capability-negotiation response carries the
success key `return`. -/
theorem connect_success_iff (parse : List Nat → Option QMPMsg) (open_ok send_ok : Bool)
    (g r : List Chunk) :
    connect parse open_ok g send_ok r = true ↔
      (open_ok = true ∧ (∃ m, qmp_recv parse g = Except.ok m) ∧ send_ok = true ∧
        (∃ m, qmp_recv parse r = Except.ok m ∧ m.hasReturn = true)) := by
  unfold connect
  cases open_ok with
  | false => simp
  | true =>
    cases hg : qmp_recv parse g with
    | error e => simp [hg]
    | ok m =>
      cases send_ok with
      | false => simp [hg]
      | true =>
        cases hr : qmp_recv parse r with
        | error e => simp [hg, hr]
        | ok m2 => simp [hg, hr]

lemma recvGo_close_of_no_parse (parse : List Nat → Option QMPMsg) :
    ∀ (cs : List Nat) (acc : List Nat),
      (∀ k, k < cs.length → parse (acc ++ cs.take (k + 1)) = none) →
      recvGo parse acc (cs.map Chunk.data ++ [Chunk.close]) = Except.ok {} := by
  intro cs
  induction cs with
  | nil => intro acc _; rfl
  | cons c cs ih =>
    intro acc h
    have h0 : parse (acc ++ [c]) = none := by simpa using h 0 (by simp)
    simp only [List.map_cons, List.cons_append, recvGo, h0]
    apply ih
    intro k hk
    have hx := h (k + 1) (by simpa using Nat.succ_lt_succ hk)
    simpa [List.take_succ_cons, List.append_assoc] using hx

/-- Claim C10: when the peer closes the connection before any accumulated
prefix parses as a complete JSON document, `_recv` returns the empty object
`{}` rather than raising, and every protocol operation then uniformly reports
failure through its return value: `query_balloon` returns `None`,
`set_balloon` returns `False`, and `connect` returns `False` (its second
`_recv`, on the now-closed socket, again sees the empty chunk).  All four
embeddings are total functions: no exception escapes. -/
theorem recv_on_close_returns_empty (parse : List Nat → Option QMPMsg) (ds : List Nat)
    (h : ∀ k, k < ds.length → parse (ds.take (k + 1)) = none) :
    qmp_recv parse (ds.map Chunk.data ++ [Chunk.close]) = Except.ok {} ∧
    query_balloon parse true (ds.map Chunk.data ++ [Chunk.close]) = none ∧
    set_balloon parse true (ds.map Chunk.data ++ [Chunk.close]) = false ∧
    connect parse true (ds.map Chunk.data ++ [Chunk.close]) true [Chunk.close] = false := by
  have hr : qmp_recv parse (ds.map Chunk.data ++ [Chunk.close]) = Except.ok {} := by
    apply recvGo_close_of_no_parse parse ds []
    simpa using h
  refine ⟨hr, ?_, ?_, ?_⟩
  · simp [query_balloon, hr]
  · simp [set_balloon, hr]
  · have hr' : recvGo parse [] (ds.map Chunk.data ++ [Chunk.close]) = Except.ok {} := hr
    simp [connect, qmp_recv, hr', recvGo]

/-- Witness for C10: two data chunks that never parse, then the peer closes. -/
theorem recv_on_close_returns_empty_witness :
    (∀ k, k < ([0, 1] : List Nat).length →
      (fun _ => none : List Nat → Option QMPMsg) (([0, 1] : List Nat).take (k + 1)) = none) ∧
    (qmp_recv (fun _ => none) ([0, 1].map Chunk.data ++ [Chunk.close]) = Except.ok {} ∧
      query_balloon (fun _ => none) true ([0, 1].map Chunk.data ++ [Chunk.close]) = none ∧
      set_balloon (fun _ => none) true ([0, 1].map Chunk.data ++ [Chunk.close]) = false ∧
      connect (fun _ => none) true ([0, 1].map Chunk.data ++ [Chunk.close]) true
        [Chunk.close] = false) :=
  ⟨fun _ _ => rfl, recv_on_close_returns_empty (fun _ => none) [0, 1] (fun _ _ => rfl)⟩

lemma mbOf_add_mul (b a : Int) : mbOf (b + a * (1024 * 1024)) = mbOf b + a := by
  unfold mbOf
  rw [Int.fdiv_eq_ediv _ (by norm_num), Int.fdiv_eq_ediv _ (by norm_num)]
  exact Int.add_mul_ediv_right b a (by norm_num)

lemma mbOf_mul (a : Int) : mbOf (a * (1024 * 1024)) = a := by
  unfold mbOf
  exact Int.mul_fdiv_cancel a (by norm_num)

lemma adjust_memory_actionable (s : ControllerState) (v : VMStatus) (b : Int)
    (hok sok : Bool)
    (hseq : v.seq_id.getD 0 ≠ s.last_processed_seq_id) (htot : v.total_mb.getD 0 ≠ 0) :
    ∃ s2 f,
      s2.initial_balloon_mb = some f ∧
      s2.max_memory_mb = s.max_memory_mb ∧ s2.max_slots = s.max_slots ∧
      s2.hotplug_slot_counter = s.hotplug_slot_counter ∧
      s2.total_hotplugged_mb = s.total_hotplugged_mb ∧
      (s.initial_balloon_mb = none → f = Int.fdiv b (1024 * 1024)) ∧
      (∀ f₀, s.initial_balloon_mb = some f₀ → f = f₀) ∧
      (adjust_memory s (some v) (some b) hok sok = lowBranch s2 f (v.total_mb.getD 0) hok ∨
       adjust_memory s (some v) (some b) hok sok =
         highBranch s2 f (Int.fdiv b (1024 * 1024)) sok ∨
       adjust_memory s (some v) (some b) hok sok = ⟨s2, true, [Command.queryBalloon]⟩) := by
  by_cases hi : s.initial_balloon_mb = none
  · refine ⟨{ { s with initial_balloon_mb := some (Int.fdiv b (1024 * 1024)) } with
        last_processed_seq_id := v.seq_id.getD 0 }, Int.fdiv b (1024 * 1024),
      rfl, rfl, rfl, rfl, rfl, fun _ => rfl, ?_, ?_⟩
    · intro f₀ hf₀; rw [hf₀] at hi; cases hi
    · simp only [adjust_memory, if_neg hseq, if_neg htot]
      rw [if_pos hi]
      simp only [Option.getD_some]
      split
      · exact Or.inl rfl
      · split
        · exact Or.inr (Or.inl rfl)
        · exact Or.inr (Or.inr rfl)
  · obtain ⟨f₀, hf₀⟩ := Option.ne_none_iff_exists'.mp hi
    refine ⟨{ s with last_processed_seq_id := v.seq_id.getD 0 }, f₀,
      hf₀, rfl, rfl, rfl, rfl, fun h => absurd h hi,
      fun f₁ h => by rw [hf₀] at h; exact Option.some_inj.mp h, ?_⟩
    simp only [adjust_memory, if_neg hseq, if_neg htot]
    rw [if_neg hi]
    simp only [hf₀, Option.getD_some]
    split
    · exact Or.inl rfl
    · split
      · exact Or.inr (Or.inl rfl)
      · exact Or.inr (Or.inr rfl)

lemma stateAux_intro (max_mb b0 : Int) (c : ControllerState) (bb : Int)
    (h1 : Int.fdiv b0 (1024 * 1024) ≤ max_mb) (h2 : c.max_memory_mb = max_mb)
    (h3 : c.max_slots = 16) (h4 : c.hotplug_slot_counter ≤ 16)
    (h5 : ∃ f, c.initial_balloon_mb = some f ∧ f ≤ mbOf bb ∧
      mbOf bb ≤ f + c.total_hotplugged_mb ∧ f + c.total_hotplugged_mb ≤ max_mb) :
    StateAux max_mb b0 ⟨c, bb⟩ := by
  obtain ⟨f, hf, ha, hb, hc⟩ := h5
  refine ⟨h1, h2, h3, h4, ?_, ?_⟩
  · intro hn; rw [hf] at hn; cases hn
  · intro f' hf'; rw [hf] at hf'
    obtain rfl := Option.some_inj.mp hf'
    exact ⟨ha, hb, hc⟩

lemma sysStep_preserves (max_mb b0 : Int) (σ : SysState) (e : EnvInput)
    (h : StateAux max_mb b0 σ) :
    StateAux max_mb b0 (sysStep σ e) ∧ stepCommandsOK σ e = true := by
  obtain ⟨hb0, hmax, hms, hcnt, hnone, hsome⟩ := h
  cases hvm : e.vm_status with
  | none =>
    constructor
    · simp only [sysStep, hvm, adjust_memory, List.foldl]
      exact ⟨hb0, hmax, hms, hcnt, hnone, hsome⟩
    · simp [stepCommandsOK, hvm, adjust_memory]
  | some v =>
    by_cases hseq : v.seq_id.getD 0 = σ.ctrl.last_processed_seq_id
    · constructor
      · simp only [sysStep, hvm, adjust_memory_skip _ v _ _ _ hseq, List.foldl]
        exact ⟨hb0, hmax, hms, hcnt, hnone, hsome⟩
      · simp [stepCommandsOK, hvm, adjust_memory_skip _ v _ _ _ hseq]
    · by_cases htot : v.total_mb.getD 0 = 0
      · constructor
        · simp only [sysStep, hvm, adjust_memory, if_neg hseq, if_pos htot, List.foldl]
          exact ⟨hb0, hmax, hms, hcnt, hnone, hsome⟩
        · simp only [stepCommandsOK, hvm, adjust_memory, if_neg hseq, if_pos htot]
          rfl
      · cases hq : e.query_ok with
        | false =>
          constructor
          · simp only [sysStep, hvm, hq, Bool.false_eq_true, if_false, adjust_memory,
              if_neg hseq, if_neg htot, List.foldl, applyCommand]
            exact ⟨hb0, hmax, hms, hcnt, hnone, hsome⟩
          · simp [stepCommandsOK, hvm, hq, adjust_memory, if_neg hseq, if_neg htot, commandOK]
        | true =>
          obtain ⟨s2, f, hsf, hmax2, hms2, hcnt2, hhot2, hfnew, hfold, hbr⟩ :=
            adjust_memory_actionable σ.ctrl v σ.balloon_bytes e.hotplug_ok e.set_ok hseq htot
          have hfb : f ≤ mbOf σ.balloon_bytes ∧
              mbOf σ.balloon_bytes ≤ f + σ.ctrl.total_hotplugged_mb ∧
              f + σ.ctrl.total_hotplugged_mb ≤ max_mb := by
            by_cases hi : σ.ctrl.initial_balloon_mb = none
            · obtain ⟨h1, h2, h3⟩ := hnone hi
              have hf := hfnew hi
              rw [hf, h1, h3]
              unfold mbOf
              omega
            · obtain ⟨f₀, hf₀⟩ := Option.ne_none_iff_exists'.mp hi
              rw [hfold f₀ hf₀]
              exact hsome f₀ hf₀
          obtain ⟨hfb1, hfb2, hfb3⟩ := hfb
          rcases hbr with hbr | hbr | hbr
          · -- low-memory branch
            rcases lowBranch_spec s2 f (v.total_mb.getD 0) e.hotplug_ok with
              hlb | ⟨a, ha256, hacap, haslot, hcase⟩
            · have hout := hbr.trans hlb
              constructor
              · simp only [sysStep, hvm, hq, if_true, hout, List.foldl, applyCommand]
                refine stateAux_intro max_mb b0 _ _ hb0 ?_ ?_ ?_ ⟨f, hsf, hfb1, ?_, ?_⟩
                · dsimp only; omega
                · dsimp only; omega
                · dsimp only; omega
                · dsimp only; omega
                · dsimp only; omega
              · simp [stepCommandsOK, hvm, hq, hout, commandOK]
            · have hacap' : f + σ.ctrl.total_hotplugged_mb + a ≤ σ.ctrl.max_memory_mb := by
                rw [hhot2, hmax2] at hacap
                exact hacap
              rcases hcase with ⟨hhok, hlb⟩ | ⟨hhok, hlb⟩
              · -- hotplug issued and succeeded
                have hout := hbr.trans hlb
                rw [hhok] at hout
                constructor
                · simp only [sysStep, hvm, hq, if_true, hhok, hout, List.foldl, applyCommand]
                  refine stateAux_intro max_mb b0 _ _ hb0 ?_ ?_ ?_ ⟨f, hsf, ?_, ?_, ?_⟩
                  · dsimp only; omega
                  · dsimp only; omega
                  · dsimp only; omega
                  · rw [mbOf_add_mul]; omega
                  · dsimp only; rw [mbOf_add_mul]; omega
                  · dsimp only; omega
                · simp only [stepCommandsOK, hvm, hq, if_true, hhok, hout, List.all, commandOK,
                    Bool.and_true]
                  rw [hsf]
                  simp only [Bool.true_and, Bool.and_true, decide_eq_true_eq]
                  exact hacap'
              · -- hotplug issued and failed
                have hout := hbr.trans hlb
                rw [hhok] at hout
                constructor
                · simp only [sysStep, hvm, hq, if_true, hhok, hout, List.foldl, applyCommand,
                    Bool.false_eq_true, if_false]
                  refine stateAux_intro max_mb b0 _ _ hb0 ?_ ?_ ?_ ⟨f, hsf, hfb1, ?_, ?_⟩
                  · dsimp only; omega
                  · dsimp only; omega
                  · dsimp only; omega
                  · dsimp only; omega
                  · dsimp only; omega
                · simp only [stepCommandsOK, hvm, hq, if_true, hhok, hout, List.all, commandOK,
                    Bool.and_true]
                  rw [hsf]
                  simp only [Bool.true_and, Bool.and_true, decide_eq_true_eq]
                  exact hacap'
          · -- high-memory branch
            rcases highBranch_spec s2 f (Int.fdiv σ.balloon_bytes (1024 * 1024)) e.set_ok with
              hhb | ⟨ns, hns1, hns2, hhb⟩
            · have hout := hbr.trans hhb
              constructor
              · simp only [sysStep, hvm, hq, if_true, hout, List.foldl, applyCommand]
                refine stateAux_intro max_mb b0 _ _ hb0 ?_ ?_ ?_ ⟨f, hsf, hfb1, ?_, ?_⟩
                · dsimp only; omega
                · dsimp only; omega
                · dsimp only; omega
                · dsimp only; omega
                · dsimp only; omega
              · simp [stepCommandsOK, hvm, hq, hout, commandOK]
            · have hout := hbr.trans hhb
              have hnsc : ns < mbOf σ.balloon_bytes := hns2
              constructor
              · simp only [sysStep, hvm, hq, if_true, hout, List.foldl, applyCommand]
                refine stateAux_intro max_mb b0 _ _ hb0 ?_ ?_ ?_ ⟨f, hsf, ?_, ?_, ?_⟩
                · dsimp only; omega
                · dsimp only; omega
                · dsimp only; omega
                · cases hsok : e.set_ok with
                  | false => simp only [hsok, Bool.false_eq_true, if_false]; exact hfb1
                  | true => simp only [hsok, if_true]; rw [mbOf_mul]; omega
                · dsimp only
                  cases hsok : e.set_ok with
                  | false => simp only [hsok, Bool.false_eq_true, if_false]; omega
                  | true => simp only [hsok, if_true]; rw [mbOf_mul]; omega
                · dsimp only; omega
              · simp only [stepCommandsOK, hvm, hq, if_true, hout, List.all, commandOK,
                  Bool.and_true]
                rw [hsf]
                simp only [Bool.true_and, Bool.and_true, decide_eq_true_eq]
                omega
          · -- neutral band
            constructor
            · simp only [sysStep, hvm, hq, if_true, hbr, List.foldl, applyCommand]
              refine stateAux_intro max_mb b0 _ _ hb0 ?_ ?_ ?_ ⟨f, hsf, hfb1, ?_, ?_⟩
              · dsimp only; omega
              · dsimp only; omega
              · dsimp only; omega
              · dsimp only; omega
              · dsimp only; omega
            · simp [stepCommandsOK, hvm, hq, hbr, commandOK]

lemma sysRun_preserves (max_mb b0 : Int) :
    ∀ (inputs : List EnvInput) (σ : SysState), StateAux max_mb b0 σ →
      StateAux max_mb b0 (sysRun σ inputs) ∧ traceCommandsOK σ inputs = true := by
  intro inputs
  induction inputs with
  | nil => intro σ h; exact ⟨h, rfl⟩
  | cons e es ih =>
    intro σ h
    obtain ⟨h1, h2⟩ := sysStep_preserves max_mb b0 σ e h
    obtain ⟨h3, h4⟩ := ih (sysStep σ e) h1
    refine ⟨h3, ?_⟩
    simp only [traceCommandsOK, h2, h4, Bool.and_self]

lemma stateAux_sysInvOK (max_mb b0 : Int) (σ : SysState) (h : StateAux max_mb b0 σ) :
    sysInvOK σ = true := by
  obtain ⟨hb0, hmax, hms, hcnt, hnone, hsome⟩ := h
  cases hi : σ.ctrl.initial_balloon_mb with
  | none =>
    simp only [sysInvOK, hi, Bool.and_true, decide_eq_true_eq]
    omega
  | some f =>
    obtain ⟨h1, h2, h3⟩ := hsome f hi
    simp only [sysInvOK, hi, Bool.and_eq_true, decide_eq_true_eq]
    exact ⟨by omega, ⟨h1, h2⟩, by omega⟩

lemma stateAux_init (min_mb max_mb b0 : Int)
    (hb0 : Int.fdiv b0 (1024 * 1024) ≤ max_mb) :
    StateAux max_mb b0 (initSys min_mb max_mb b0) :=
  ⟨hb0, rfl, rfl, by show (0 : Int) ≤ 16; norm_num, fun _ => ⟨rfl, rfl, rfl⟩,
    fun f hf => by exact Option.noConfusion hf⟩

/-- Claim C1: starting from a freshly connected controller next to an
idealised hypervisor whose initial balloon reports `b0` bytes (within the
configured ceiling, as the launcher arranges by starting the VM with
`min_memory_mb` and a larger ceiling), every sequence of `adjust_memory`
calls — with arbitrary telemetry records and arbitrary per-command
success/failure — keeps the capacity bookkeeping invariant in every reachable
state: once the floor is captured from the first balloon query,
`floor_mb ≤ current_balloon_mb ≤ floor_mb + total_hotplugged_mb ≤ ceiling_mb`,
and always `hotplug_slot_count ≤ max_slots` (16); moreover every balloon-set
command issued anywhere along the trace targets at least `floor_mb`, and every
hotplug issued keeps `floor_mb + total_hotplugged_mb ≤ ceiling_mb`. -/
theorem capacity_invariant_reachable (min_mb max_mb b0 : Int)
    (hb0 : Int.fdiv b0 (1024 * 1024) ≤ max_mb) (inputs : List EnvInput) :
    sysInvOK (sysRun (initSys min_mb max_mb b0) inputs) = true ∧
    traceCommandsOK (initSys min_mb max_mb b0) inputs = true := by
  obtain ⟨h1, h2⟩ := sysRun_preserves max_mb b0 inputs (initSys min_mb max_mb b0)
    (stateAux_init min_mb max_mb b0 hb0)
  exact ⟨stateAux_sysInvOK max_mb b0 _ h1, h2⟩

/-- Witness for C1: floor 2048 MB, ceiling 8192, and a three-cycle trace that
hotplugs, balloons down, and suffers a failed hotplug. -/
theorem capacity_invariant_reachable_witness :
    (Int.fdiv (2048 * 1048576) (1024 * 1024) ≤ (8192 : Int)) ∧
    (sysInvOK (sysRun (initSys 1024 8192 (2048 * 1048576))
        [⟨some { seq_id := some 1, total_mb := some 4096, available_mb := some 800 },
           true, true, true⟩,
         ⟨some { seq_id := some 2, total_mb := some 4096, available_mb := some 2400 },
           true, true, true⟩,
         ⟨some { seq_id := some 3, total_mb := some 4096, available_mb := some 800 },
           true, false, true⟩]) = true ∧
     traceCommandsOK (initSys 1024 8192 (2048 * 1048576))
        [⟨some { seq_id := some 1, total_mb := some 4096, available_mb := some 800 },
           true, true, true⟩,
         ⟨some { seq_id := some 2, total_mb := some 4096, available_mb := some 2400 },
           true, true, true⟩,
         ⟨some { seq_id := some 3, total_mb := some 4096, available_mb := some 800 },
           true, false, true⟩] = true) :=
  ⟨by decide, capacity_invariant_reachable 1024 8192 (2048 * 1048576) (by decide) _⟩

end StudentMachine
